import Mathlib

/-!
Verification development for the project_SABA device firmware
(`Device SDK`): capability registry dispatch, observation builder,
port registry, asset-URL patching, connect-time publish protocol and
the bounded tool-job queue, shallowly embedded from the C++ sources.
-/

namespace SABA

/-! ## Observation builder (lib/mcp-sdk/src/tool.h, `ObservationBuilder`) -/

/-- The `error` object of an observation: `{code, message}`,
as written by `ObservationBuilder::error`. -/
structure ErrorInfo where
  code : String
  message : String
deriving DecidableEq, Repr

/-- One entry of `result.assets[]`. Only the `url` member is ever touched by the
patching code; all other members are kept as an opaque association list. The
`url` is `none` when the asset object has no `url` member (`a["url"] | nullptr`
yields the null pointer). -/
structure Asset where
  url : Option String
  other : List (String × String)
deriving DecidableEq, Repr

/-- The JSON document held by an `ObservationBuilder`:
`{type:"device.observation", ok, request_id?, result:{text, assets}, error?}`.
The constant `type` member is implicit. -/
structure ObsState where
  ok : Bool
  request_id : Option String
  text : String
  assets : List Asset
  error : Option ErrorInfo
deriving DecidableEq, Repr

/-- `ObservationBuilder()` constructor: `ok=false`, `result.text=""`,
`result.assets=[]`, no `request_id`, no `error` object. -/
def ObsState.init : ObsState :=
  { ok := false, request_id := none, text := "", assets := [], error := none }

/-- `ObservationBuilder::setRequestId`. -/
def ObsState.setRequestId (s : ObsState) (rid : String) : ObsState :=
  { s with request_id := some rid }

/-- `ObservationBuilder::error(code,msg)`: sets `ok=false` and writes the
`error` object. -/
def ObsState.errorOp (s : ObsState) (code msg : String) : ObsState :=
  { s with ok := false, error := some ⟨code, msg⟩ }

/-- `ObservationBuilder::setText`. -/
def ObsState.setText (s : ObsState) (t : String) : ObsState :=
  { s with text := t }

/-- `ObservationBuilder::addAsset()`: appends a fresh asset object (the caller
fills it in; the model takes the resulting content as the argument). -/
def ObsState.addAsset (s : ObsState) (a : Asset) : ObsState :=
  { s with assets := s.assets ++ [a] }

/-- `ObservationBuilder::success(text)`: sets `ok=true` and the result text. -/
def ObsState.success (s : ObsState) (t : String) : ObsState :=
  { s with ok := true, text := t }

/-- One mutating call a tool may make on an `ObservationBuilder`. -/
inductive ObOp where
  | setRequestId (rid : String)
  | errorOp (code msg : String)
  | setText (t : String)
  | addAsset (a : Asset)
  | success (t : String)
deriving DecidableEq, Repr

/-- Interpret one builder call on the builder state. -/
def applyOp (s : ObsState) : ObOp → ObsState
  | .setRequestId rid => s.setRequestId rid
  | .errorOp c m => s.errorOp c m
  | .setText t => s.setText t
  | .addAsset a => s.addAsset a
  | .success t => s.success t

/-- The observation obtained by constructing an `ObservationBuilder` and
performing a sequence of calls on it (what `toJson` then serializes). -/
def buildObs (ops : List ObOp) : ObsState :=
  ops.foldl applyOp ObsState.init

/-- Whether a call is `ObservationBuilder::error`. -/
def ObOp.isErrorOp : ObOp → Bool
  | .errorOp _ _ => true
  | _ => false

/-- Whether a call is `ObservationBuilder::success`. -/
def ObOp.isSuccess : ObOp → Bool
  | .success _ => true
  | _ => false

/-- The invariant claimed for observations: exactly one of a successful result
(`ok = true`) or an error object is populated, and the `error.code` /
`error.message` fields are present iff `ok` is false. -/
def obsInvariant (s : ObsState) : Prop :=
  ((s.ok = true ∨ s.error.isSome = true) ∧ ¬(s.ok = true ∧ s.error.isSome = true)) ∧
    (s.error.isSome = true ↔ s.ok = false)

instance (s : ObsState) : Decidable (obsInvariant s) := by
  unfold obsInvariant; infer_instance

/-! ## Capability registry (lib/mcp-sdk/src/registry.h / registry.cpp) -/

/-- Arguments object passed through to `ITool::invoke`; treated opaquely. -/
abbrev Args := List (String × String)

/-- A registered tool: its stable `name()` and its `invoke` behaviour, which
transforms the observation-builder state and returns the tool's boolean
result. -/
structure ToolM where
  name : String
  invoke : Args → ObsState → ObsState × Bool

/-- An inbound command as read by `dispatch`: `cmd["type"]|""`,
`cmd["tool"]|""`, `cmd["request_id"]|""` (missing members extract as `""`),
and the `args` object. -/
structure Command where
  type : String
  tool : String
  request_id : String
  args : Args

/-- Result of `ToolRegistry::dispatch`: the boolean return (`matched`), the
observation written to `outEventsJson` (none when the command is rejected
before an observation is built), and the registration indices of the tools
whose `invoke` was called, in call order. -/
structure DispatchResult where
  matched : Bool
  out : Option ObsState
  invoked : List Nat

/-- The lookup loop `for(auto* t:tools){ if(toolName==t->name()){ target=t;
break; } }`: first tool (with its registration index) whose name equals
`toolName`, scanning in registration order. -/
def findTool (toolName : String) : List ToolM → Option (Nat × ToolM)
  | [] => none
  | t :: ts =>
    if toolName = t.name then some (0, t)
    else (findTool toolName ts).map (fun it => (it.1 + 1, it.2))

/-- `ToolRegistry::dispatch(cmd, outEventsJson, http_base)`. `millisHex` stands
for the freshly generated correlation token `String(millis(),HEX)`. -/
def dispatch (tools : List ToolM) (cmd : Command) (millisHex : String) :
    DispatchResult :=
  if cmd.type ≠ "device.command" then ⟨false, none, []⟩
  else
    let ob := ObsState.init.setRequestId
      (if cmd.request_id.length > 0 then cmd.request_id else millisHex)
    match findTool cmd.tool tools with
    | none => ⟨false, some (ob.errorOp "unsupported_tool" "tool not found"), []⟩
    | some (i, t) =>
      let r := t.invoke cmd.args ob
      ⟨r.2, some r.1, [i]⟩

/-- A tool as seen by `ToolRegistry::initAll`: its name and the boolean its
`init()` hook returns. -/
structure ToolInit where
  name : String
  initResult : Bool
deriving DecidableEq, Repr

/-- The loop body of `initAll`: `ok = t->init() && ok` iterated over the
remaining tools, starting from accumulator `acc`; also returns the trace of
tools whose `init()` hook actually ran, in order. `t->init()` is the left
operand of `&&`, so it is evaluated unconditionally. -/
def initAllFrom (acc : Bool) : List ToolInit → Bool × List String
  | [] => (acc, [])
  | t :: ts =>
    let acc2 := t.initResult && acc
    let rest := initAllFrom acc2 ts
    (rest.1, t.name :: rest.2)

/-- `ToolRegistry::initAll(): bool ok=true; for(auto* t:tools)
ok=t->init()&&ok; return ok;` with the init-call trace. -/
def initAll (tools : List ToolInit) : Bool × List String :=
  initAllFrom true tools

/-! ## Port registry (port_added/lib/port/port_registry.h / .cpp) -/

/-- Shallow model of the C `float` values stored in ports: either `NAN`
or a finite value, represented as a rational. The modelled code paths never
compute with these values; they are only stored and read back. -/
inductive FloatVal where
  | nan : FloatVal
  | fin : ℚ → FloatVal
deriving DecidableEq, Repr

/-- An `InPort` slot: `{name, dataType, value}`. -/
structure InPort where
  name : String
  dataType : String
  value : FloatVal
deriving DecidableEq, Repr

/-- `PortRegistry::findInPort(name)`: first registered `InPort` whose name
equals `name`, else null. -/
def findInPort (name : String) : List InPort → Option InPort
  | [] => none
  | p :: ps => if p.name = name then some p else findInPort name ps

/-- `PortRegistry::handleInPortSet(name, value)`: if no `InPort` matches, the
write is dropped (registry unchanged); otherwise the first matching slot's
value is overwritten through the pointer returned by `findInPort`. -/
def handleInPortSet (ports : List InPort) (name : String) (v : FloatVal) :
    List InPort :=
  match ports with
  | [] => []
  | p :: ps =>
    if p.name = name then { p with value := v } :: ps
    else p :: handleInPortSet ps name v

/-- `port_get_inport_value(name)`: `p ? p->value : NAN` over
`findInPort`. -/
def port_get_inport_value (ports : List InPort) (name : String) : FloatVal :=
  match findInPort name ports with
  | some p => p.value
  | none => FloatVal.nan

/-! ## Asset URL patching (lib/event-sdk/src/mqtt_emitter.h
`patchAssetUrls`, and the identical inline patch in `ToolWorkerTask`) -/

/-- `url[0] == '/'` on a non-null C string: the first character is the path
separator (false for the empty string, whose first byte is the terminator). -/
def beginsWithSlash (s : String) : Bool :=
  s.data.head? = some '/'

/-- The per-asset body of the patch loop: if the asset has a `url` member whose
first character is `/`, replace it by `http_base + url`; otherwise leave the
asset untouched. -/
def patchAsset (http_base : String) (a : Asset) : Asset :=
  match a.url with
  | some url =>
    if beginsWithSlash url then { a with url := some (http_base ++ url) } else a
  | none => a

/-- The parsed observation document as seen by the patch code:
`tmp["result"]["assets"]` (none when the member is null) plus the untouched
remainder of the document. -/
structure ObsDoc where
  assets : Option (List Asset)
  rest : List (String × String)
deriving DecidableEq, Repr

/-- `patchAssetUrls`: when `result.assets` is present, map the patch over every
asset and reserialize; when it is null, the document is left unchanged. -/
def patchAssetUrls (http_base : String) (d : ObsDoc) : ObsDoc :=
  match d.assets with
  | none => d
  | some as => { d with assets := some (as.map (patchAsset http_base)) }

/-! ## Connect-time publish protocol (esp32_c3_mini main.cpp:
`mqttConnect`, `publishAnnounce`, `publishStatus`, `publishPortsAnnounce`) -/

/-- One MQTT publish performed by the device, with its retain flag. -/
inductive PubMsg where
  | announce (retain : Bool)
  | status (online : Bool) (retain : Bool)
  | portsAnnounce (retain : Bool)
deriving DecidableEq, Repr

/-- Device-side transport state: whether `mqtt.connected()` holds, and the
trace of publishes issued so far. -/
structure DevState where
  connected : Bool
  pubs : List PubMsg
deriving DecidableEq, Repr

/-- `publishAnnounce()`: no-op unless connected; publishes the capability
announce with `retain=true`. -/
def publishAnnounce (st : DevState) : DevState :=
  if st.connected then { st with pubs := st.pubs ++ [.announce true] } else st

/-- `publishStatus(online)`: no-op unless connected; publishes the status
record with `retain=false`. -/
def publishStatus (online : Bool) (st : DevState) : DevState :=
  if st.connected then { st with pubs := st.pubs ++ [.status online false] }
  else st

/-- `publishPortsAnnounce()`: no-op unless connected; publishes the ports
announce with `retain=true`. -/
def publishPortsAnnounce (st : DevState) : DevState :=
  if st.connected then { st with pubs := st.pubs ++ [.portsAnnounce true] }
  else st

/-- `mqttConnect()`: already connected returns true immediately; otherwise the
handshake `mqtt.connect(...)` either fails (state unchanged, false) or
succeeds, after which the device subscribes and then publishes announce,
status(online=true), ports announce, in that order. `handshakeOk` stands for
the outcome of `mqtt.connect`. -/
def mqttConnect (handshakeOk : Bool) (st : DevState) : DevState × Bool :=
  if st.connected then (st, true)
  else if handshakeOk then
    let st1 : DevState := { st with connected := true }
    (publishPortsAnnounce (publishStatus true (publishAnnounce st1)), true)
  else (st, false)

/-! ## Tool job queue (esp32_c3_mini main.cpp: `ToolJob`, the
`device.command` branch of the MQTT receive callback, `ToolWorkerTask`) -/

/-- `sizeof(ToolJob::payload)` — the fixed 768-byte job buffer. -/
def JOB_CAPACITY : Nat := 768

/-- `xQueueCreate(4, sizeof(ToolJob))` — the queue holds at most 4 jobs. -/
def QUEUE_LENGTH : Nat := 4

/-- One queued job: the stored length and the bytes `memcpy`ed into the
buffer (the buffer is modelled by its meaningful prefix). -/
structure ToolJob where
  len : Nat
  payload : List Nat
deriving DecidableEq, Repr

/-- FreeRTOS `xQueueSend(q, &job, 0)`: with a zero tick timeout the item is
copied to the back of the queue if a slot is free, else the call fails
immediately without blocking or retrying. -/
def xQueueSend0 (q : List ToolJob) (j : ToolJob) : List ToolJob × Bool :=
  if q.length < QUEUE_LENGTH then (q ++ [j], true) else (q, false)

/-- What the receive callback did with one command payload. -/
inductive RxOutcome where
  | enqueued
  | droppedOversize
  | droppedQueueFull
deriving DecidableEq, Repr

/-- The `device.command` branch of the `mqtt.setCallback` lambda: an oversize
payload (`length >= sizeof(ToolJob::payload)`) is dropped before any `ToolJob`
is constructed or any byte copied; otherwise a job holding exactly the
payload's bytes is offered to the queue with a zero timeout, and dropped if
the queue is full. -/
def onCmdMessage (q : List ToolJob) (payload : List Nat) :
    List ToolJob × RxOutcome :=
  if JOB_CAPACITY ≤ payload.length then (q, .droppedOversize)
  else
    let job : ToolJob := { len := payload.length, payload := payload }
    let r := xQueueSend0 q job
    if r.2 then (r.1, .enqueued) else (q, .droppedQueueFull)

/-- An event of the queue system: the receive callback gets a command payload,
or the worker task runs one iteration (`xQueueReceive(..., portMAX_DELAY)`). -/
inductive QEvent where
  | recv (payload : List Nat)
  | work
deriving DecidableEq, Repr

/-- Observable state of the queue system: the queue contents, the jobs
accepted into the queue in arrival order, the jobs the worker has dequeued in
processing order, and the number of dropped payloads. -/
structure QState where
  queue : List ToolJob
  accepted : List ToolJob
  processed : List ToolJob
  dropped : Nat
deriving DecidableEq, Repr

/-- Initial queue-system state: empty queue, nothing accepted or processed. -/
def QState.start : QState := ⟨[], [], [], 0⟩

/-- One step of the queue system. On `recv` the callback logic runs; on `work`
the worker's blocking `xQueueReceive` either takes the front job (FIFO) or,
with the queue empty, keeps the worker blocked and changes nothing. -/
def stepQ (s : QState) : QEvent → QState
  | .recv payload =>
    let r := onCmdMessage s.queue payload
    match r.2 with
    | .enqueued =>
      { s with queue := r.1,
               accepted := s.accepted ++ [⟨payload.length, payload⟩] }
    | _ => { s with dropped := s.dropped + 1 }
  | .work =>
    match s.queue with
    | [] => s
    | j :: js =>
      { queue := js, accepted := s.accepted,
        processed := s.processed ++ [j], dropped := s.dropped }

/-- Run the queue system from the initial state over a list of events. -/
def runQ (evs : List QEvent) : QState :=
  evs.foldl stepQ QState.start

/-! ## Lemmas about tool lookup -/

/-- If no registered tool's name equals `n`, the lookup loop finds nothing. -/
theorem findTool_eq_none (n : String) (ts : List ToolM)
    (h : ∀ t ∈ ts, n ≠ t.name) : findTool n ts = none := by
  induction ts with
  | nil => rfl
  | cons t ts ih =>
    simp only [findTool]
    rw [if_neg (h t (List.mem_cons_self t ts))]
    rw [ih (fun u hu => h u (List.mem_cons_of_mem t hu))]
    rfl

/-- If the tool at index `i` is the first whose name equals `n`, the lookup
loop finds exactly it, with its index. -/
theorem findTool_eq_some (n : String) (ts : List ToolM) (i : Nat) (t : ToolM)
    (hget : ts.get? i = some t) (hname : t.name = n)
    (hbefore : ∀ j, j < i → ∀ u, ts.get? j = some u → u.name ≠ n) :
    findTool n ts = some (i, t) := by
  induction ts generalizing i with
  | nil => simp [List.get?] at hget
  | cons a ts ih =>
    cases i with
    | zero =>
      have ha : a = t := by
        have : some a = some t := hget
        exact Option.some.inj this
      subst ha
      simp [findTool, hname]
    | succ i =>
      have ha : a.name ≠ n := hbefore 0 (Nat.succ_pos i) a rfl
      simp only [findTool]
      rw [if_neg (fun h => ha h.symm)]
      rw [ih i hget (fun j hj u hu =>
        hbefore (j + 1) (Nat.succ_lt_succ hj) u hu)]
      rfl

/-! ## Claims C1, C5, C7, C2 -/

/-- Claim C1: for every inbound command of type "device.command" whose tool
name equals no registered tool's name, `ToolRegistry::dispatch` produces an
Observation with ok:false and error.code "unsupported_tool", returns
matched=false, and never calls any tool's invoke. -/
theorem C1_unsupported_tool_dispatch (tools : List ToolM) (cmd : Command)
    (millisHex : String)
    (hty : cmd.type = "device.command")
    (hno : ∀ t ∈ tools, cmd.tool ≠ t.name) :
    (dispatch tools cmd millisHex).matched = false ∧
    (dispatch tools cmd millisHex).invoked = [] ∧
    ∃ obs, (dispatch tools cmd millisHex).out = some obs ∧
      obs.ok = false ∧
      obs.error = some ⟨"unsupported_tool", "tool not found"⟩ := by
  have hft := findTool_eq_none cmd.tool tools hno
  simp [dispatch, hty, hft, ObsState.errorOp, ObsState.setRequestId,
    ObsState.init]

/-- A sample tool used by concrete witnesses. -/
def toolA : ToolM := ⟨"A", fun _ s => (s.success "A ran", true)⟩

/-- A second sample tool, sharing `toolA`'s name, used to exercise
first-match-wins. -/
def toolA2 : ToolM := ⟨"A", fun _ s => (s.success "A2 ran", false)⟩

/-- Witness for C1 at a concrete registry and command. -/
theorem C1_unsupported_tool_dispatch_witness :
    (dispatch [toolA] ⟨"device.command", "C", "", []⟩ "1a2b").matched = false ∧
    (dispatch [toolA] ⟨"device.command", "C", "", []⟩ "1a2b").invoked = [] ∧
    ∃ obs,
      (dispatch [toolA] ⟨"device.command", "C", "", []⟩ "1a2b").out = some obs ∧
      obs.ok = false ∧
      obs.error = some ⟨"unsupported_tool", "tool not found"⟩ :=
  C1_unsupported_tool_dispatch [toolA] ⟨"device.command", "C", "", []⟩ "1a2b"
    rfl
    (by intro t ht
        rw [List.mem_singleton] at ht
        subst ht
        decide)

/-- Claim C5: dispatch invokes exactly the first tool in registration order
whose name equals the command's tool name, under exact case-sensitive string
comparison; a later-registered tool with the same name is never invoked. -/
theorem C5_first_match_invoked (tools : List ToolM) (cmd : Command)
    (millisHex : String) (i : Nat) (t : ToolM)
    (hty : cmd.type = "device.command")
    (hget : tools.get? i = some t)
    (hname : t.name = cmd.tool)
    (hbefore : ∀ j, j < i → ∀ u, tools.get? j = some u → u.name ≠ cmd.tool) :
    (dispatch tools cmd millisHex).invoked = [i] ∧
    (dispatch tools cmd millisHex).out =
      some (t.invoke cmd.args (ObsState.init.setRequestId
        (if cmd.request_id.length > 0 then cmd.request_id else millisHex))).1 ∧
    (dispatch tools cmd millisHex).matched =
      (t.invoke cmd.args (ObsState.init.setRequestId
        (if cmd.request_id.length > 0 then cmd.request_id else millisHex))).2 := by
  have hft := findTool_eq_some cmd.tool tools i t hget hname hbefore
  simp [dispatch, hty, hft]

/-- Witness for C5: two same-named tools registered; only the first (index 0)
is invoked, and its result is passed through. -/
theorem C5_first_match_invoked_witness :
    (dispatch [toolA, toolA2] ⟨"device.command", "A", "r7", []⟩ "1a2b").invoked
      = [0] ∧
    (dispatch [toolA, toolA2] ⟨"device.command", "A", "r7", []⟩ "1a2b").out =
      some (toolA.invoke [] (ObsState.init.setRequestId
        (if ("r7" : String).length > 0 then "r7" else "1a2b"))).1 ∧
    (dispatch [toolA, toolA2] ⟨"device.command", "A", "r7", []⟩ "1a2b").matched
      = (toolA.invoke [] (ObsState.init.setRequestId
        (if ("r7" : String).length > 0 then "r7" else "1a2b"))).2 :=
  C5_first_match_invoked [toolA, toolA2] ⟨"device.command", "A", "r7", []⟩
    "1a2b" 0 toolA rfl rfl rfl
    (fun j hj _ _ => absurd hj (Nat.not_lt_zero j))

/-- Claim C7: `ToolRegistry::initAll` calls the init hook of every registered
tool exactly once, in registration order, regardless of any earlier tool's
failure, and returns true iff every tool's init returned true. -/
theorem C7_initAll_calls_every_tool (tools : List ToolInit) :
    (initAll tools).2 = tools.map ToolInit.name ∧
    (initAll tools).1 = tools.all ToolInit.initResult := by
  have key : ∀ (ts : List ToolInit) (acc : Bool),
      initAllFrom acc ts =
        (acc && ts.all ToolInit.initResult, ts.map ToolInit.name) := by
    intro ts
    induction ts with
    | nil => intro acc; simp [initAllFrom]
    | cons t ts ih =>
      intro acc
      simp only [initAllFrom, ih, List.all_cons, List.map_cons]
      cases acc <;> cases t.initResult <;> simp
  simp [initAll, key]

/-- Claim C2, refuted at a concrete input: the freshly constructed
`ObservationBuilder` (no `success`/`error` call yet, as serialized by
`toJson`) has `ok = false` but no `error.code`/`error.message`, so the
claimed "error present iff ok is false" invariant fails. -/
theorem C2_counterexample_fresh_builder : ¬ obsInvariant (buildObs []) := by
  decide

/-- Only `ObservationBuilder::error` creates the `error` object; nothing
removes it. -/
theorem errorIsSome_foldl (ops : List ObOp) (s : ObsState) :
    ((ops.foldl applyOp s).error).isSome =
      (s.error.isSome || ops.any ObOp.isErrorOp) := by
  induction ops generalizing s with
  | nil => simp
  | cons op ops ih =>
    simp only [List.foldl_cons, List.any_cons, ih]
    cases op <;>
      simp [applyOp, ObOp.isErrorOp, ObsState.errorOp, ObsState.setRequestId,
        ObsState.setText, ObsState.addAsset, ObsState.success,
        Bool.or_assoc, Bool.or_comm, Bool.or_left_comm]

/-- With no `error` call, `ok` ends up true iff some `success` call ran. -/
theorem ok_foldl_noErrorOp (ops : List ObOp) (s : ObsState)
    (h : ops.any ObOp.isErrorOp = false) :
    (ops.foldl applyOp s).ok = (s.ok || ops.any ObOp.isSuccess) := by
  induction ops generalizing s with
  | nil => simp
  | cons op ops ih =>
    simp only [List.any_cons, Bool.or_eq_false_iff] at h
    obtain ⟨h1, h2⟩ := h
    simp only [List.foldl_cons, List.any_cons]
    rw [ih _ h2]
    cases op <;>
      simp_all [applyOp, ObOp.isErrorOp, ObOp.isSuccess, ObsState.success,
        ObsState.setRequestId, ObsState.setText, ObsState.addAsset,
        Bool.or_assoc, Bool.or_comm, Bool.or_left_comm]

/-- With no `success` call, any `error` call forces `ok` to end up false. -/
theorem ok_foldl_noSuccess (ops : List ObOp) (s : ObsState)
    (h : ops.any ObOp.isSuccess = false) :
    (ops.foldl applyOp s).ok = (s.ok && !(ops.any ObOp.isErrorOp)) := by
  induction ops generalizing s with
  | nil => simp
  | cons op ops ih =>
    simp only [List.any_cons, Bool.or_eq_false_iff] at h
    obtain ⟨h1, h2⟩ := h
    simp only [List.foldl_cons, List.any_cons]
    rw [ih _ h2]
    cases op <;>
      simp_all [applyOp, ObOp.isErrorOp, ObOp.isSuccess, ObsState.errorOp,
        ObsState.setRequestId, ObsState.setText, ObsState.addAsset]

/-- Claim C2 (amended): every Observation built by `ObservationBuilder` on
which exactly one of `success()` or `error()` has been called (at least once,
and never the other) satisfies the invariant: exactly one of a successful
result or an error is populated, and the `error.code`/`error.message` fields
are present iff `ok` is false. Unrestricted, the claim fails: the fresh
builder has `ok=false` and no error object. -/
theorem C2_amended_obs_invariant (ops : List ObOp)
    (h : ops.any ObOp.isErrorOp ≠ ops.any ObOp.isSuccess) :
    obsInvariant (buildObs ops) := by
  have hE := errorIsSome_foldl ops ObsState.init
  unfold obsInvariant buildObs
  cases he : ops.any ObOp.isErrorOp with
  | false =>
    have hs : ops.any ObOp.isSuccess = true := by
      cases hsa : ops.any ObOp.isSuccess
      · rw [he, hsa] at h; exact absurd rfl h
      · rfl
    have hok := ok_foldl_noErrorOp ops ObsState.init he
    rw [he] at hE
    rw [hs] at hok
    rw [hE, hok]
    simp [ObsState.init]
  | true =>
    have hs : ops.any ObOp.isSuccess = false := by
      cases hsa : ops.any ObOp.isSuccess
      · rfl
      · rw [he, hsa] at h; exact absurd rfl h
    have hok := ok_foldl_noSuccess ops ObsState.init hs
    rw [he] at hE hok
    rw [hE, hok]
    simp [ObsState.init]

/-- Witness for the amended C2 at the concrete call sequence the no-match
dispatch path performs. -/
theorem C2_amended_obs_invariant_witness :
    obsInvariant (buildObs
      [ObOp.setRequestId "1a2b",
       ObOp.errorOp "unsupported_tool" "tool not found"]) :=
  C2_amended_obs_invariant
    [ObOp.setRequestId "1a2b",
     ObOp.errorOp "unsupported_tool" "tool not found"]
    (by decide)

/-! ## Claims C8, C10 -/

/-- Claim C8: `handleInPortSet` on a name matching no InPort leaves every
existing InPort unchanged (the write is silently dropped); on a matching name
the first matching slot's value is overwritten unconditionally — with no
check of the declared data-type tag, for any value — and every other slot is
unchanged (the result is the list with only index `i`'s value replaced). -/
theorem C8_handleInPortSet (ports : List InPort) (name : String)
    (v : FloatVal) :
    ((∀ p ∈ ports, p.name ≠ name) → handleInPortSet ports name v = ports) ∧
    (∀ i p, ports.get? i = some p → p.name = name →
      (∀ j q, j < i → ports.get? j = some q → q.name ≠ name) →
      handleInPortSet ports name v = ports.set i { p with value := v }) := by
  constructor
  · intro hno
    induction ports with
    | nil => rfl
    | cons p ps ih =>
      simp only [handleInPortSet]
      rw [if_neg (hno p (List.mem_cons_self p ps))]
      rw [ih (fun q hq => hno q (List.mem_cons_of_mem p hq))]
  · intro i p hget hname hbefore
    induction ports generalizing i with
    | nil => simp [List.get?] at hget
    | cons a ps ih =>
      cases i with
      | zero =>
        have ha : a = p := Option.some.inj hget
        subst ha
        simp only [handleInPortSet, List.set]
        rw [if_pos hname]
      | succ i =>
        have ha : a.name ≠ name := hbefore 0 a (Nat.succ_pos i) rfl
        simp only [handleInPortSet, List.set]
        rw [if_neg ha]
        rw [ih i hget (fun j q hj hq =>
          hbefore (j + 1) q (Nat.succ_lt_succ hj) hq)]

/-- Witness for C8: an unknown name drops the write; a known (duplicated)
name overwrites only the first matching slot, ignoring the data-type tag. -/
theorem C8_handleInPortSet_witness :
    handleInPortSet [⟨"var_a", "float", .fin 1⟩] "var_b" (.fin 2) =
      [⟨"var_a", "float", .fin 1⟩] ∧
    handleInPortSet [⟨"var_a", "bool", .fin 1⟩, ⟨"var_a", "float", .fin 3⟩]
        "var_a" (.fin 2) =
      [⟨"var_a", "bool", .fin 2⟩, ⟨"var_a", "float", .fin 3⟩] :=
  ⟨(C8_handleInPortSet [⟨"var_a", "float", .fin 1⟩] "var_b" (.fin 2)).1
      (by intro p hp
          rw [List.mem_singleton] at hp
          subst hp
          decide),
   (C8_handleInPortSet [⟨"var_a", "bool", .fin 1⟩, ⟨"var_a", "float", .fin 3⟩]
        "var_a" (.fin 2)).2 0 ⟨"var_a", "bool", .fin 1⟩ rfl rfl
      (fun j _ hj _ => absurd hj (Nat.not_lt_zero j))⟩

/-- Claim C10: `port_get_inport_value` returns the current value of the first
registered InPort whose name matches, and `NAN` when no InPort with that name
exists. -/
theorem C10_port_get_inport_value (ports : List InPort) (name : String) :
    ((∀ p ∈ ports, p.name ≠ name) →
      port_get_inport_value ports name = FloatVal.nan) ∧
    (∀ i p, ports.get? i = some p → p.name = name →
      (∀ j q, j < i → ports.get? j = some q → q.name ≠ name) →
      port_get_inport_value ports name = p.value) := by
  have hfind_none : (∀ p ∈ ports, p.name ≠ name) →
      findInPort name ports = none := by
    intro hno
    induction ports with
    | nil => rfl
    | cons p ps ih =>
      simp only [findInPort]
      rw [if_neg (hno p (List.mem_cons_self p ps))]
      exact ih (fun q hq => hno q (List.mem_cons_of_mem p hq))
  constructor
  · intro hno
    unfold port_get_inport_value
    rw [hfind_none hno]
  · intro i p hget hname hbefore
    have hfind : findInPort name ports = some p := by
      clear hfind_none
      induction ports generalizing i with
      | nil => simp [List.get?] at hget
      | cons a ps ih =>
        cases i with
        | zero =>
          have ha : a = p := Option.some.inj hget
          subst ha
          simp [findInPort, hname]
        | succ i =>
          have ha : a.name ≠ name := hbefore 0 a (Nat.succ_pos i) rfl
          simp only [findInPort]
          rw [if_neg ha]
          exact ih i hget (fun j q hj hq =>
            hbefore (j + 1) q (Nat.succ_lt_succ hj) hq)
    unfold port_get_inport_value
    rw [hfind]

/-- Witness for C10: lookup of a duplicated name yields the first slot's
value; lookup of an absent name yields NaN. -/
theorem C10_port_get_inport_value_witness :
    port_get_inport_value [⟨"var_a", "float", .fin 5⟩] "var_b" =
      FloatVal.nan ∧
    port_get_inport_value
        [⟨"var_a", "float", .fin 5⟩, ⟨"var_a", "float", .fin 7⟩] "var_a" =
      FloatVal.fin 5 :=
  ⟨(C10_port_get_inport_value [⟨"var_a", "float", .fin 5⟩] "var_b").1
      (by intro p hp
          rw [List.mem_singleton] at hp
          subst hp
          decide),
   (C10_port_get_inport_value
        [⟨"var_a", "float", .fin 5⟩, ⟨"var_a", "float", .fin 7⟩] "var_a").2
      0 ⟨"var_a", "float", .fin 5⟩ rfl rfl
      (fun j _ hj _ => absurd hj (Nat.not_lt_zero j))⟩

/-! ## Claims C6, C9 -/

/-- Claim C6: before an Observation is published, every asset url beginning
with '/' is rewritten to `http_base ++ url`, and every asset url not
beginning with '/' (e.g. already carrying a scheme) is left byte-identical;
the rest of the document is untouched and the patch is applied to every
element of `result.assets`. -/
theorem C6_asset_url_patch (http_base : String) (d : ObsDoc)
    (as : List Asset) (h : d.assets = some as) :
    (patchAssetUrls http_base d).assets =
      some (as.map (patchAsset http_base)) ∧
    (patchAssetUrls http_base d).rest = d.rest ∧
    (∀ a url, a.url = some url → beginsWithSlash url = true →
      patchAsset http_base a = { a with url := some (http_base ++ url) }) ∧
    (∀ a : Asset, (∀ url, a.url = some url → beginsWithSlash url = false) →
      patchAsset http_base a = a) := by
  refine ⟨?_, ?_, ?_, ?_⟩
  · simp [patchAssetUrls, h]
  · simp [patchAssetUrls, h]
  · intro a url hu hs
    simp [patchAsset, hu, hs]
  · intro a hno
    cases hu : a.url with
    | none => simp [patchAsset, hu]
    | some url => simp [patchAsset, hu, hno url hu]

/-- Witness for C6: `/last.jpg` with base `http://10.0.0.5` becomes
`http://10.0.0.5/last.jpg`; an absolute URL is untouched. -/
theorem C6_asset_url_patch_witness :
    (patchAssetUrls "http://10.0.0.5"
        ⟨some [⟨some "/last.jpg", []⟩, ⟨some "http://cdn/x.jpg", []⟩],
         []⟩).assets =
      some [⟨some "http://10.0.0.5/last.jpg", []⟩,
            ⟨some "http://cdn/x.jpg", []⟩] := by
  rw [(C6_asset_url_patch "http://10.0.0.5"
      ⟨some [⟨some "/last.jpg", []⟩, ⟨some "http://cdn/x.jpg", []⟩], []⟩
      [⟨some "/last.jpg", []⟩, ⟨some "http://cdn/x.jpg", []⟩] rfl).1]
  decide

/-- Claim C9: on every successful MQTT handshake the device publishes exactly
this sequence, in order: capability announce (retain=true), liveness status
(online=true, retain=false), ports announce (retain=true). -/
theorem C9_connect_publish_sequence (st : DevState) (handshakeOk : Bool)
    (hnc : st.connected = false) (hok : handshakeOk = true) :
    ((mqttConnect handshakeOk st).1).pubs =
      st.pubs ++ [.announce true, .status true false, .portsAnnounce true] ∧
    ((mqttConnect handshakeOk st).1).connected = true ∧
    (mqttConnect handshakeOk st).2 = true := by
  subst hok
  simp [mqttConnect, hnc, publishAnnounce, publishStatus,
    publishPortsAnnounce]

/-- Witness for C9 at a fresh disconnected device. -/
theorem C9_connect_publish_sequence_witness :
    ((mqttConnect true ⟨false, []⟩).1).pubs =
      [PubMsg.announce true, PubMsg.status true false,
       PubMsg.portsAnnounce true] ∧
    ((mqttConnect true ⟨false, []⟩).1).connected = true ∧
    (mqttConnect true ⟨false, []⟩).2 = true :=
  C9_connect_publish_sequence ⟨false, []⟩ true rfl rfl

/-! ## Queue-system lemmas -/

/-- Closed form of the receive-callback logic. -/
theorem onCmdMessage_eq (q : List ToolJob) (payload : List Nat) :
    onCmdMessage q payload =
      if JOB_CAPACITY ≤ payload.length then (q, .droppedOversize)
      else if q.length < QUEUE_LENGTH
        then (q ++ [⟨payload.length, payload⟩], .enqueued)
        else (q, .droppedQueueFull) := by
  simp only [onCmdMessage, xQueueSend0]
  by_cases h1 : JOB_CAPACITY ≤ payload.length <;>
    by_cases h2 : q.length < QUEUE_LENGTH <;> simp [h1, h2]

/-- A valid payload arriving with a free slot is appended to the back of the
queue and recorded as accepted. -/
theorem stepQ_recv_enq (s : QState) (p : List Nat)
    (hp : p.length < JOB_CAPACITY) (h2 : s.queue.length < QUEUE_LENGTH) :
    stepQ s (.recv p) =
      { s with queue := s.queue ++ [⟨p.length, p⟩],
               accepted := s.accepted ++ [⟨p.length, p⟩] } := by
  simp [stepQ, onCmdMessage_eq, Nat.not_le_of_lt hp, h2]

/-- A valid payload arriving while the queue is full is dropped at once, the
queue and both job lists unchanged. -/
theorem stepQ_recv_full (s : QState) (p : List Nat)
    (hp : p.length < JOB_CAPACITY) (h2 : ¬ s.queue.length < QUEUE_LENGTH) :
    stepQ s (.recv p) = { s with dropped := s.dropped + 1 } := by
  simp [stepQ, onCmdMessage_eq, Nat.not_le_of_lt hp, h2]

/-- An oversize payload is dropped at once, before touching the queue. -/
theorem stepQ_recv_oversize (s : QState) (p : List Nat)
    (hp : JOB_CAPACITY ≤ p.length) :
    stepQ s (.recv p) = { s with dropped := s.dropped + 1 } := by
  simp [stepQ, onCmdMessage_eq, hp]

/-- The queue-system invariant: the queue never exceeds its capacity, and the
accepted jobs are exactly the processed jobs followed by the queued ones. -/
def QInv (s : QState) : Prop :=
  s.queue.length ≤ QUEUE_LENGTH ∧ s.accepted = s.processed ++ s.queue

/-- Every step preserves the queue-system invariant. -/
theorem stepQ_inv (s : QState) (e : QEvent) (h : QInv s) : QInv (stepQ s e) := by
  obtain ⟨hlen, hfifo⟩ := h
  cases e with
  | recv p =>
    by_cases h1 : JOB_CAPACITY ≤ p.length
    · rw [stepQ_recv_oversize s p h1]
      exact ⟨hlen, hfifo⟩
    · by_cases h2 : s.queue.length < QUEUE_LENGTH
      · rw [stepQ_recv_enq s p (Nat.lt_of_not_le h1) h2]
        refine ⟨?_, ?_⟩
        · simpa using h2
        · simp only [hfifo, List.append_assoc]
      · rw [stepQ_recv_full s p (Nat.lt_of_not_le h1) h2]
        exact ⟨hlen, hfifo⟩
  | work =>
    cases hq : s.queue with
    | nil =>
      simp only [stepQ, hq]
      exact ⟨hlen, hfifo⟩
    | cons j js =>
      rw [hq] at hlen hfifo
      simp only [stepQ, hq]
      refine ⟨?_, ?_⟩
      · dsimp only
        simp only [List.length_cons] at hlen
        omega
      · simp only [hfifo, List.append_assoc, List.singleton_append]

/-- The invariant holds after any run from the initial state. -/
theorem runQ_inv (evs : List QEvent) : QInv (runQ evs) := by
  have key : ∀ s, QInv s → QInv (evs.foldl stepQ s) := by
    induction evs with
    | nil => intro s h; exact h
    | cons e evs ih => intro s h; exact ih _ (stepQ_inv s e h)
  exact key QState.start ⟨Nat.zero_le _, rfl⟩

/-- Counting lemma for a burst of valid command payloads with the worker
blocked: the free slots are filled and every further payload is dropped. -/
theorem recvRun_counts (payloads : List (List Nat)) :
    ∀ s : QState, (∀ p ∈ payloads, p.length < JOB_CAPACITY) →
      s.queue.length ≤ QUEUE_LENGTH →
      ((payloads.map QEvent.recv).foldl stepQ s).dropped =
        s.dropped + (payloads.length - (QUEUE_LENGTH - s.queue.length)) ∧
      ((payloads.map QEvent.recv).foldl stepQ s).accepted.length =
        s.accepted.length +
          min payloads.length (QUEUE_LENGTH - s.queue.length) := by
  induction payloads with
  | nil => intro s _ _; simp
  | cons p ps ih =>
    intro s hv hlen
    have hp : p.length < JOB_CAPACITY := hv p (List.mem_cons_self p ps)
    have hv' : ∀ x ∈ ps, x.length < JOB_CAPACITY :=
      fun x hx => hv x (List.mem_cons_of_mem p hx)
    simp only [List.map_cons, List.foldl_cons, List.length_cons]
    by_cases h2 : s.queue.length < QUEUE_LENGTH
    · rw [stepQ_recv_enq s p hp h2]
      obtain ⟨ihd, iha⟩ := ih
        { s with queue := s.queue ++ [⟨p.length, p⟩],
                 accepted := s.accepted ++ [⟨p.length, p⟩] }
        hv' (by simp only [List.length_append, List.length_cons,
              List.length_nil]; omega)
      rw [ihd, iha]
      simp only [List.length_append, List.length_cons, List.length_nil]
      omega
    · rw [stepQ_recv_full s p hp h2]
      obtain ⟨ihd, iha⟩ := ih { s with dropped := s.dropped + 1 } hv' hlen
      rw [ihd, iha]
      dsimp only
      omega

/-! ## Claims C3, C4 -/

/-- Claim C3: the job queue holds at most 4 jobs; a receive-callback enqueue
uses a zero timeout, so on a full queue the new job is dropped immediately
with the queue unchanged; every accepted job is dequeued in FIFO arrival
order (the accepted sequence is always the processed sequence followed by the
queue contents); the worker's dequeue takes no job and changes nothing while
the queue is empty; and a burst of `n` valid payloads against the initially
empty queue with the worker blocked accepts `min n 4` and drops exactly the
overflow `n - 4`. -/
theorem C3_job_queue (evs : List QEvent) (payloads : List (List Nat)) :
    (runQ evs).queue.length ≤ QUEUE_LENGTH ∧
    (runQ evs).accepted = (runQ evs).processed ++ (runQ evs).queue ∧
    (∀ s : QState, ∀ p : List Nat, p.length < JOB_CAPACITY →
      s.queue.length = QUEUE_LENGTH →
      stepQ s (.recv p) = { s with dropped := s.dropped + 1 }) ∧
    (∀ s : QState, s.queue = [] → stepQ s .work = s) ∧
    ((∀ p ∈ payloads, p.length < JOB_CAPACITY) →
      (runQ (payloads.map QEvent.recv)).dropped =
        payloads.length - QUEUE_LENGTH ∧
      (runQ (payloads.map QEvent.recv)).accepted.length =
        min payloads.length QUEUE_LENGTH) := by
  refine ⟨(runQ_inv evs).1, (runQ_inv evs).2, ?_, ?_, ?_⟩
  · intro s p hp hfull
    exact stepQ_recv_full s p hp (by omega)
  · intro s hq
    simp only [stepQ, hq]
  · intro hv
    have h := recvRun_counts payloads QState.start hv (Nat.zero_le _)
    simpa [runQ, QState.start] using h

/-- Witness for C3: a five-payload burst into the empty queue accepts four
jobs and drops exactly one; a full queue drops a further arrival unchanged;
the worker step on an empty queue is a no-op. -/
theorem C3_job_queue_witness :
    (runQ ([[1], [2], [3], [4], [5]].map QEvent.recv)).dropped = 1 ∧
    (runQ ([[1], [2], [3], [4], [5]].map QEvent.recv)).accepted.length = 4 ∧
    stepQ ⟨[⟨1, [1]⟩, ⟨1, [2]⟩, ⟨1, [3]⟩, ⟨1, [4]⟩], [], [], 0⟩ (.recv [9]) =
      ⟨[⟨1, [1]⟩, ⟨1, [2]⟩, ⟨1, [3]⟩, ⟨1, [4]⟩], [], [], 1⟩ ∧
    stepQ ⟨[], [], [], 0⟩ .work = ⟨[], [], [], 0⟩ :=
  ⟨((C3_job_queue [] [[1], [2], [3], [4], [5]]).2.2.2.2 (by decide)).1,
   ((C3_job_queue [] [[1], [2], [3], [4], [5]]).2.2.2.2 (by decide)).2,
   (C3_job_queue [] []).2.2.1
     ⟨[⟨1, [1]⟩, ⟨1, [2]⟩, ⟨1, [3]⟩, ⟨1, [4]⟩], [], [], 0⟩ [9]
     (by decide) rfl,
   (C3_job_queue [] []).2.2.2.1 ⟨[], [], [], 0⟩ rfl⟩

/-- Claim C4: a command payload whose length reaches the 768-byte job buffer
capacity is rejected before enqueue — no Job record is built and the queue
(every slot) is left unchanged — while an accepted payload's job carries
exactly its length bytes. -/
theorem C4_oversize_rejected (q : List ToolJob) (payload : List Nat) :
    (JOB_CAPACITY ≤ payload.length →
      onCmdMessage q payload = (q, RxOutcome.droppedOversize)) ∧
    (payload.length < JOB_CAPACITY →
      ∀ q2 r, onCmdMessage q payload = (q2, r) → r = RxOutcome.enqueued →
        q2 = q ++ [⟨payload.length, payload⟩]) := by
  constructor
  · intro hbig
    rw [onCmdMessage_eq, if_pos hbig]
  · intro hsmall q2 r heq henq
    rw [onCmdMessage_eq, if_neg (Nat.not_le_of_lt hsmall)] at heq
    by_cases hlen : q.length < QUEUE_LENGTH
    · rw [if_pos hlen] at heq
      injection heq with h1 h2
      exact h1.symm
    · rw [if_neg hlen] at heq
      injection heq with h1 h2
      rw [← h2] at henq
      exact absurd henq (by decide)

/-- Witness for C4: a 768-byte payload is rejected with the queue untouched;
a 3-byte payload is accepted carrying exactly its bytes. -/
theorem C4_oversize_rejected_witness :
    onCmdMessage [] (List.replicate JOB_CAPACITY 0) =
      ([], RxOutcome.droppedOversize) ∧
    ([⟨3, [1, 2, 3]⟩] : List ToolJob) = [] ++ [⟨3, [1, 2, 3]⟩] :=
  ⟨(C4_oversize_rejected [] (List.replicate JOB_CAPACITY 0)).1 (by simp),
   (C4_oversize_rejected [] [1, 2, 3]).2 (by decide) [⟨3, [1, 2, 3]⟩]
     RxOutcome.enqueued (by decide) rfl⟩

end SABA
